import Mathlib

/-!
# Verification of the djangae App Engine database backend

Shallow embedding of `src/djangae/db/backends/appengine/base.py` (the value
codec, the unique-constraint cache, the entity mapper, the cursor shim and
the flush operation), together with theorems settling the frozen claims
about that code.

Python values are modelled by the inductive `PyValue`; Python 2 `unicode`
strings are Lean `String`s, Python 2 `str` byte strings are `List Nat`.
Machine-level concerns (actual datastore RPCs, the live cache) are modelled
as the lists of operations the code would issue.
-/

namespace Djangae

/-- The Python values flowing through the backend.  `ustr` is a py2
`unicode` string, `bytes` a py2 `str` byte string, `text`/`blob` the
datastore `Text`/`Blob` wrapper types (subclasses of `unicode`/`str`),
`date`/`time`/`datetime` the stdlib date types (a `date` is its proleptic
Gregorian ordinal, a `time` is microseconds since midnight, a `datetime` is
an ordinal, microseconds since midnight, and whether a UTC tzinfo is
attached), `dec` is `decimal.Decimal` with coefficient `c` and `q` decimal
places (the value `c / 10^q`), and `float` is a finite binary float
`m * 2^e` (floats are only ever passed through and truthiness-tested by the
code under verification, never computed with).  The only list-valued
property the verified code paths construct is the polymodel `class` list of
kind names, so list values are embedded as lists of strings. -/
inductive PyValue where
  | none
  | int (n : Int)
  | float (m : Int) (e : Int)
  | ustr (s : String)
  | bytes (bs : List Nat)
  | text (s : String)
  | blob (bs : List Nat)
  | date (ord : Int)
  | time (us : Nat)
  | datetime (ord : Int) (us : Nat) (utc : Bool)
  | dec (c : Int) (q : Nat)
  | strlist (ss : List String)
  deriving Repr, DecidableEq

/-- Python truthiness (`bool(v)`) for the modelled values.  Note the py2
quirk that a naive midnight `time` is falsy. -/
def pyTruthy : PyValue → Bool
  | .none => false
  | .int n => n != 0
  | .float m _ => m != 0
  | .ustr s => !s.data.isEmpty
  | .bytes bs => !bs.isEmpty
  | .text s => !s.data.isEmpty
  | .blob bs => !bs.isEmpty
  | .date _ => true
  | .time us => us != 0
  | .datetime _ _ _ => true
  | .dec c _ => c != 0
  | .strlist ss => !ss.isEmpty

/-- `isinstance(v, int)` (py2 `int`/`long`; `bool` is a subclass of `int`
and is represented by `.int`). -/
def isInstInt : PyValue → Bool
  | .int _ => true
  | _ => false

/-- `isinstance(v, basestring)`: `unicode` and `str` together with their
subclasses `Text` and `Blob`. -/
def isInstBasestring : PyValue → Bool
  | .ustr _ => true
  | .bytes _ => true
  | .text _ => true
  | .blob _ => true
  | _ => false

/-- `isinstance(v, str)` (py2 byte strings; `Blob` is a `str` subclass). -/
def isInstStr : PyValue → Bool
  | .bytes _ => true
  | .blob _ => true
  | _ => false

/-- `v is None`. -/
def pyIsNone : PyValue → Bool
  | .none => true
  | _ => false

/-! ## Decimal digit machinery -/

/-- The `w` decimal digits of `n`, most significant first, zero padded
(faithful for `n < 10^w`). -/
def natDigits : Nat → Nat → List Nat
  | 0, _ => []
  | w + 1, n => natDigits w (n / 10) ++ [n % 10]

/-- Value of a most-significant-first digit list. -/
def digitsVal (ds : List Nat) : Nat := ds.foldl (fun a d => a * 10 + d) 0

/-- Decimal digit to character. -/
def digChar (d : Nat) : Char :=
  match d with
  | 0 => '0' | 1 => '1' | 2 => '2' | 3 => '3' | 4 => '4'
  | 5 => '5' | 6 => '6' | 7 => '7' | 8 => '8' | 9 => '9'
  | _ => '?'

/-- Character to decimal digit (0 for non-digits). -/
def charDigit (c : Char) : Nat :=
  match c with
  | '0' => 0 | '1' => 1 | '2' => 2 | '3' => 3 | '4' => 4
  | '5' => 5 | '6' => 6 | '7' => 7 | '8' => 8 | '9' => 9
  | _ => 0

/-- Decimal rendering of a nonnegative `n` without padding (used only for
`str()`-style formatting of values inside cache keys). -/
def natStr (n : Nat) : String :=
  if n < 10 then String.mk [digChar n]
  else String.mk ((natDigits (Nat.log 10 n + 1) n).map digChar)

/-- `str(i)` for a Python integer. -/
def intStr (i : Int) : String :=
  if i < 0 then "-" ++ natStr i.natAbs else natStr i.natAbs

/-! ## UTF-8 decoding (`str.decode('utf-8')`)

Best-effort total model: well-formed sequences decode to their code
points; malformed input (which raises `UnicodeDecodeError` in Python and
is never exercised by the theorems below) is cut short. -/

def utf8Aux : List Nat → List Nat
  | [] => []
  | b :: rest =>
    if b < 128 then b :: utf8Aux rest
    else if b < 224 then
      match rest with
      | b2 :: r => ((b - 192) * 64 + (b2 - 128)) :: utf8Aux r
      | [] => []
    else if b < 240 then
      match rest with
      | b2 :: b3 :: r =>
          ((b - 224) * 4096 + (b2 - 128) * 64 + (b3 - 128)) :: utf8Aux r
      | _ => []
    else
      match rest with
      | b2 :: b3 :: b4 :: r =>
          ((b - 240) * 262144 + (b2 - 128) * 4096 + (b3 - 128) * 64 + (b4 - 128)) :: utf8Aux r
      | _ => []
termination_by l => l.length
decreasing_by all_goals (simp_all [List.length]; try omega)

/-- `bs.decode('utf-8')` as a Lean string. -/
def decodeUtf8 (bs : List Nat) : String :=
  String.mk ((utf8Aux bs).map Char.ofNat)

/-! ## Python equality (`==`) on the modelled values

Python 2 equality identifies `unicode` values with their `Text` subclass,
`str` values with their `Blob` subclass, a `str` with a `unicode` when the
bytes are ASCII, and compares numerics (`int`, `float`, `Decimal`) by
value; aware and naive datetimes are never equal, aware ones compare as
instants (both are UTC in this model). -/

/-- `m * 2^e == a` for a float compared with an integer. -/
def floatEqInt (m e : Int) (a : Int) : Bool :=
  if 0 ≤ e then m * (2 : Int) ^ e.toNat == a else m == a * (2 : Int) ^ (-e).toNat

/-- Equality of two binary floats `m * 2^e` and `m' * 2^e'`. -/
def floatEqFloat (m e m' e' : Int) : Bool :=
  if e ≤ e' then m == m' * (2 : Int) ^ (e' - e).toNat
  else m * (2 : Int) ^ (e - e').toNat == m'

/-- py2 `unicode == str`: the bytes must be ASCII and match the code
points. -/
def asciiEq (s : String) (bs : List Nat) : Bool :=
  bs.all (· < 128) && s.data.map Char.toNat == bs

def pyEqb : PyValue → PyValue → Bool
  | .none, .none => true
  | .int a, .int b => a == b
  | .int a, .float m e => floatEqInt m e a
  | .float m e, .int a => floatEqInt m e a
  | .float m e, .float m' e' => floatEqFloat m e m' e'
  | .int a, .dec c q => c == a * (10 : Int) ^ q
  | .dec c q, .int a => c == a * (10 : Int) ^ q
  | .dec c q, .dec c' q' => c * (10 : Int) ^ q' == c' * (10 : Int) ^ q
  | .ustr a, .ustr b => a == b
  | .ustr a, .text b => a == b
  | .text a, .ustr b => a == b
  | .text a, .text b => a == b
  | .bytes a, .bytes b => a == b
  | .bytes a, .blob b => a == b
  | .blob a, .bytes b => a == b
  | .blob a, .blob b => a == b
  | .ustr a, .bytes b => asciiEq a b
  | .bytes b, .ustr a => asciiEq a b
  | .ustr a, .blob b => asciiEq a b
  | .blob b, .ustr a => asciiEq a b
  | .text a, .bytes b => asciiEq a b
  | .bytes b, .text a => asciiEq a b
  | .text a, .blob b => asciiEq a b
  | .blob b, .text a => asciiEq a b
  | .date a, .date b => a == b
  | .time a, .time b => a == b
  | .datetime d t z, .datetime d' t' z' => z == z' && d == d' && t == t'
  | .strlist as, .strlist bs => as == bs
  | _, _ => false

/-! ## `str()` rendering (used by `'%s:%s' % (field, value)` in cache keys)

Only the integer and string cases are load-bearing for the claims; the
date/time/decimal renderings implement the stdlib's ISO formats, and the
remaining cases carry a diagnostic rendering (such values do not occur in
unique-field combinations in the verified flows). -/

/-- Civil date from days since 1970-01-01 (proleptic Gregorian). -/
def civilFromDays (z0 : Int) : Int × Nat × Nat :=
  let z := z0 + 719468
  let era := z.fdiv 146097
  let doe := (z - era * 146097).toNat
  let yoe := (doe - doe / 1460 + doe / 36524 - doe / 146096) / 365
  let doy := doe - (365 * yoe + yoe / 4 - yoe / 100)
  let mp := (5 * doy + 2) / 153
  let d := doy - (153 * mp + 2) / 5 + 1
  let m := if mp < 10 then mp + 3 else mp - 9
  (era * 400 + yoe + (if m ≤ 2 then 1 else 0), m, d)

/-- Fixed-width zero-padded rendering of `n`. -/
def padNum (w n : Nat) : String := String.mk ((natDigits w n).map digChar)

/-- `str(datetime.date.fromordinal(ord))`, ISO `YYYY-MM-DD`. -/
def dateStr (ord : Int) : String :=
  let c := civilFromDays (ord - 719163)
  padNum 4 c.1.toNat ++ "-" ++ padNum 2 c.2.1 ++ "-" ++ padNum 2 c.2.2

/-- `str(t)` for a time of `us` microseconds since midnight. -/
def timeStr (us : Nat) : String :=
  let s := us / 1000000
  let base := padNum 2 (s / 3600) ++ ":" ++ padNum 2 (s / 60 % 60) ++ ":" ++ padNum 2 (s % 60)
  if us % 1000000 == 0 then base else base ++ "." ++ padNum 6 (us % 1000000)

/-- `str(Decimal)` (plain notation; the scientific-notation corner for tiny
exponents is not modelled, no verified flow renders such a value). -/
def decStr (c : Int) (q : Nat) : String :=
  let sign := if c < 0 then "-" else ""
  if q == 0 then sign ++ natStr c.natAbs
  else sign ++ natStr (c.natAbs / 10 ^ q) ++ "." ++ padNum q (c.natAbs % 10 ^ q)

def pyStr : PyValue → String
  | .none => "None"
  | .int n => intStr n
  | .float m e => intStr m ++ "b" ++ intStr e
  | .ustr s => s
  | .text s => s
  | .bytes bs => String.mk ((utf8Aux bs).map Char.ofNat)
  | .blob bs => String.mk ((utf8Aux bs).map Char.ofNat)
  | .date d => dateStr d
  | .time t => timeStr t
  | .datetime d t z => dateStr d ++ " " ++ timeStr t ++ (if z then "+00:00" else "")
  | .dec c q => decStr c q
  | .strlist ss => "[" ++ String.intercalate ", " ss ++ "]"

/-! ## Field descriptors -/

/-- The Django field classes named in `DatabaseCreation.data_types`. -/
inductive FieldClass where
  | AutoField | RelatedAutoField | ForeignKey | OneToOneField | ManyToManyField
  | BigIntegerField | BooleanField | CharField | CommaSeparatedIntegerField
  | DateField | DateTimeField | DecimalField | EmailField | FileField
  | FilePathField | FloatField | ImageField | IntegerField | IPAddressField
  | NullBooleanField | PositiveIntegerField | PositiveSmallIntegerField
  | SlugField | SmallIntegerField | TimeField | URLField | AbstractIterableField
  | ListField | RawField | BlobField | TextField | XMLField | SetField
  | DictField | EmbeddedModelField
  deriving DecidableEq, Repr

/-- The logical db types appearing as values of `data_types`. -/
inductive DbType where
  | key | long | bool | string | date | datetime | decimal | float
  | integer | time | list | raw | bytes | text
  deriving DecidableEq, Repr

/-- `DatabaseCreation.data_types` / `db_type`. -/
def data_types : FieldClass → DbType
  | .AutoField => .key
  | .RelatedAutoField => .key
  | .ForeignKey => .key
  | .OneToOneField => .key
  | .ManyToManyField => .key
  | .BigIntegerField => .long
  | .BooleanField => .bool
  | .CharField => .string
  | .CommaSeparatedIntegerField => .string
  | .DateField => .date
  | .DateTimeField => .datetime
  | .DecimalField => .decimal
  | .EmailField => .string
  | .FileField => .string
  | .FilePathField => .string
  | .FloatField => .float
  | .ImageField => .string
  | .IntegerField => .integer
  | .IPAddressField => .string
  | .NullBooleanField => .bool
  | .PositiveIntegerField => .integer
  | .PositiveSmallIntegerField => .integer
  | .SlugField => .string
  | .SmallIntegerField => .integer
  | .TimeField => .time
  | .URLField => .string
  | .AbstractIterableField => .list
  | .ListField => .list
  | .RawField => .raw
  | .BlobField => .bytes
  | .TextField => .text
  | .XMLField => .text
  | .SetField => .list
  | .DictField => .bytes
  | .EmbeddedModelField => .bytes

/-- A Django field descriptor, restricted to the attributes the backend
reads: `name` (error messages, `get_field` lookups), `attname` (instance
attribute), `column` (storage column), its class, nullability, primary-key
and unique flags, the decimal precision, and `owner`, the `db_table` of the
model class the field is declared on (standing for `field.model`). -/
structure Field where
  name : String
  attname : String
  column : String
  cls : FieldClass
  null : Bool
  primary_key : Bool
  unique : Bool
  max_digits : Nat
  decimal_places : Nat
  owner : String
  deriving Repr, DecidableEq

/-- Django settings consulted by the backend. -/
structure Settings where
  USE_TZ : Bool
  COMPLETE_FLUSH_WHILE_TESTING : Bool
  deriving Repr

/-! ## Value Codec — write direction (`DatabaseOperations.value_for_db`) -/

/-- Proleptic Gregorian ordinal of 1970-01-01 (`date(1970,1,1).toordinal()`). -/
def epochOrd : Int := 719163

/-- Modelled from the spec: `djangae.db.utils.make_timezone_naive` is not
under `src/`; per the spec, date/time values are "normalized to a
timezone-naive instant before storage".  An aware (UTC) datetime loses its
tzinfo; naive values and non-datetimes pass through. -/
def make_timezone_naive : PyValue → PyValue
  | .datetime d t _ => .datetime d t false
  | v => v

/-- `DatabaseOperations.value_to_db_datetime`. -/
def value_to_db_datetime (v : PyValue) : PyValue := make_timezone_naive v

/-- `DatabaseOperations.value_to_db_date`:
`datetime.combine(value, time())` for non-None values. -/
def value_to_db_date : PyValue → PyValue
  | .none => .none
  | .date d => .datetime d 0 false
  | v => v   -- `combine` raises TypeError on non-dates; not exercised

/-- `DatabaseOperations.value_to_db_time`:
`datetime.combine(datetime.fromtimestamp(0), make_timezone_naive(value))`
for non-None values. -/
def value_to_db_time : PyValue → PyValue
  | .none => .none
  | .time us => .datetime epochOrd us false
  | v => v   -- `combine` raises TypeError on non-times; not exercised

/-- Modelled from the spec: `djangae.db.utils.decimal_to_string` is not
under `src/`.  Per the spec the decimal is "serialized as a fixed-width,
lexicographically-sortable string derived from
`(value, max_digits, decimal_places)`" whose "round-trip must reproduce the
original decimal exactly for any value within the declared precision": the
value is quantized to `decimal_places` digits, the integer part is
zero-padded to `max_digits - decimal_places` digits, and a `-` sign is
prefixed for negatives.  The input is the Decimal `(c, q)` = `c / 10^q`. -/
def decimal_to_string (c : Int) (q : Nat) (md dp : Nat) : String :=
  let n := c.natAbs * 10 ^ (dp - q)
  let ipChars := (natDigits (md - dp) (n / 10 ^ dp)).map digChar
  let body :=
    if dp = 0 then ipChars
    else ipChars ++ '.' :: (natDigits dp (n % 10 ^ dp)).map digChar
  String.mk (if c < 0 then '-' :: body else body)

/-- `DatabaseOperations.value_to_db_decimal`: `Decimal` instances are
serialized, everything else passes through. -/
def value_to_db_decimal (v : PyValue) (md dp : Nat) : PyValue :=
  match v with
  | .dec c q => .ustr (decimal_to_string c q md dp)
  | v => v

/-- `Text(value)`: wraps a `unicode` (or decodes a `str`) into the
indexed-exempt long-text datastore type. -/
def TextWrap : PyValue → PyValue
  | .ustr s => .text s
  | .text s => .text s
  | .bytes bs => .text (decodeUtf8 bs)
  | .blob bs => .text (decodeUtf8 bs)
  | v => v   -- `Text` of a non-string raises; not exercised

/-- `Blob(value)`: wraps a byte string into the opaque blob type. -/
def BlobWrap : PyValue → PyValue
  | .bytes bs => .blob bs
  | .blob bs => .blob bs
  | v => v   -- `Blob` of a non-str raises; not exercised

/-- `value.decode('utf-8')` applied when `isinstance(value, str)`. -/
def strDecodeIfBytes : PyValue → PyValue
  | .bytes bs => .ustr (decodeUtf8 bs)
  | .blob bs => .ustr (decodeUtf8 bs)
  | v => v

/-- `DatabaseOperations.value_for_db`. -/
def value_for_db (v : PyValue) (f : Field) : PyValue :=
  match v with
  | .none => .none
  | v =>
    match data_types f.cls with
    | .string => strDecodeIfBytes v
    | .text => TextWrap (strDecodeIfBytes v)
    | .bytes => BlobWrap v
    | .date => value_to_db_date v
    | .datetime => value_to_db_datetime v
    | .time => value_to_db_time v
    | .decimal => value_to_db_decimal v f.max_digits f.decimal_places
    | _ => v

/-! ## Value Codec — read direction (`DatabaseOperations.convert_values`) -/

/-- `datetime.fromtimestamp(micros / 1e6)` for the store's
microseconds-since-epoch query representation (modelled with a UTC local
timezone; the theorems below never exercise this branch). -/
def fromtimestampMicros (n : Int) : PyValue :=
  .datetime (epochOrd + n.fdiv 86400000000) (n.fmod 86400000000).toNat false

/-- `DatabaseOperations.value_from_db_datetime`. -/
def value_from_db_datetime (st : Settings) (v : PyValue) : PyValue :=
  let v := match v with
    | .int n => fromtimestampMicros n
    | v => v
  match v with
  | .datetime d t false => if st.USE_TZ then .datetime d t true else .datetime d t false
  | v => v

/-- `DatabaseOperations.value_from_db_date`: after the integer
reinterpretation, `value.date()`. -/
def value_from_db_date (v : PyValue) : PyValue :=
  let v := match v with
    | .int n => fromtimestampMicros n
    | v => v
  match v with
  | .datetime d _ _ => .date d
  | v => v   -- `.date()` on a non-datetime raises; not exercised

/-- `DatabaseOperations.value_from_db_time`: the UTC reattachment under
`USE_TZ` is dropped again by the final `value.time()`, which keeps only the
time of day.  (The integer branch of the source calls `.time()` twice and
raises `AttributeError`; it is not exercised.) -/
def value_from_db_time (_st : Settings) (v : PyValue) : PyValue :=
  match v with
  | .datetime _ t _ => .time t
  | v => v

/-- Model of `decimal.Decimal(s)` on the plain numeric strings produced by
`decimal_to_string`: an optional sign, integer digits, an optional point
and fraction digits; the exponent is the number of fraction digits. -/
def splitPoint : List Char → List Char × List Char
  | [] => ([], [])
  | c :: rest =>
    if c = '.' then ([], rest)
    else
      let p := splitPoint rest
      (c :: p.1, p.2)

def parseUnsignedDecimal (cs : List Char) : Int × Nat :=
  let p := splitPoint cs
  (Int.ofNat (digitsVal (p.1.map charDigit) * 10 ^ p.2.length + digitsVal (p.2.map charDigit)),
   p.2.length)

def pyDecimalOfString (s : String) : PyValue :=
  if s.data.head? = some '-' then
    let p := parseUnsignedDecimal s.data.tail
    .dec (-p.1) p.2
  else
    let p := parseUnsignedDecimal s.data
    .dec p.1 p.2

/-- `DatabaseOperations.value_from_db_decimal`: falsy values pass through,
anything truthy is handed to the `Decimal` constructor. -/
def value_from_db_decimal (v : PyValue) : PyValue :=
  if pyTruthy v then
    match v with
    | .ustr s => pyDecimalOfString s
    | .text s => pyDecimalOfString s
    | .int n => .dec n 0
    | .dec c q => .dec c q
    | v => v   -- `Decimal` of other types raises; not exercised
  else v

/-- The framework's base `convert_values` (`super().convert_values`) only
touches float/integer/auto fields, which are outside the logical types the
claims quantify over; modelled as the identity (the framework is an
external collaborator here). -/
def baseConvertValues (v : PyValue) (_f : Field) : PyValue := v

/-- `DatabaseOperations.convert_values`. -/
def convert_values (st : Settings) (v : PyValue) (f : Field) : PyValue :=
  let v := baseConvertValues v f
  match data_types f.cls with
  | .string =>
    match v with
    | .bytes bs => .ustr (decodeUtf8 bs)
    | .blob bs => .ustr (decodeUtf8 bs)
    | v => v
  | .datetime => value_from_db_datetime st v
  | .date => value_from_db_date v
  | .time => value_from_db_time st v
  | .decimal => value_from_db_decimal v
  | _ => v

/-- The typed values a field of the given logical type stores: the string
kinds hold `unicode` text, `bytes` holds a byte string, dates and times are
naive, a datetime is UTC-aware exactly when the deployment sets `USE_TZ`,
and a decimal must lie within the declared `(max_digits, decimal_places)`
precision. -/
def supportedValue (st : Settings) (t : DbType) (md dp : Nat) (v : PyValue) : Prop :=
  match t with
  | .string => ∃ s, v = .ustr s
  | .text => ∃ s, v = .ustr s
  | .bytes => ∃ bs, v = .bytes bs
  | .date => ∃ d, v = .date d
  | .time => ∃ us, v = .time us
  | .datetime => ∃ d us, v = .datetime d us st.USE_TZ
  | .decimal => ∃ c q, v = .dec c q ∧ q ≤ dp ∧ dp ≤ md ∧ 0 < md ∧
      c.natAbs * 10 ^ (dp - q) < 10 ^ md
  | _ => False

/-- A concrete decimal field used to witness the round-trip theorem. -/
def sampleDecimalField : Field :=
  ⟨"price", "price", "price", .DecimalField, false, false, false, 5, 2, "shop_product"⟩

/-! ## Models and entities -/

/-- A Django model's `_meta`, restricted to what the backend reads:
`app_label`, `db_table`, the primary-key column, `unique_together` (lists
of field names), the declared fields, the concrete parent models
(`_meta.parents`), the `abstract` flag, and the one-to-one child relations
(`get_all_related_objects` filtered to relations whose model has this model
among its concrete parents): pairs of the accessor name and the child
model's fields. -/
inductive Model where
  | mk (app_label : String) (db_table : String) (pk_column : String)
       (unique_together : List (List String)) (mfields : List Field)
       (parents : List Model) (abstract : Bool)
       (related_objects : List (String × List Field))

def Model.app_label : Model → String
  | .mk a _ _ _ _ _ _ _ => a

def Model.db_table : Model → String
  | .mk _ t _ _ _ _ _ _ => t

def Model.pk_column : Model → String
  | .mk _ _ c _ _ _ _ _ => c

def Model.unique_together : Model → List (List String)
  | .mk _ _ _ u _ _ _ _ => u

def Model.mfields : Model → List Field
  | .mk _ _ _ _ fs _ _ _ => fs

def Model.parents : Model → List Model
  | .mk _ _ _ _ _ ps _ _ => ps

def Model.abstract : Model → Bool
  | .mk _ _ _ _ _ _ ab _ => ab

def Model.related_objects : Model → List (String × List Field)
  | .mk _ _ _ _ _ _ _ r => r

mutual

/-- `model._meta.get_parent_list()`: all concrete ancestors. -/
def Model.get_parent_list : Model → List Model
  | .mk _ _ _ _ _ ps _ _ => parentListAux ps

def parentListAux : List Model → List Model
  | [] => []
  | p :: rest => p :: (Model.get_parent_list p ++ parentListAux rest)

end

/-- `get_datastore_kind`: the first direct parent that has no parents and
is not abstract overrides the model's own `db_table`. -/
def get_datastore_kind (m : Model) : String :=
  match m.parents.find? (fun p => p.parents.isEmpty && !p.abstract) with
  | some p => p.db_table
  | Option.none => m.db_table

/-- A datastore entity under construction: the kind, the `id=`/`name=`
kwargs passed to `datastore.Entity`, and the properties set on it.
Properties model a Python dict as an append-only association list in which
the *last* binding for a key wins. -/
structure Entity where
  kind : String
  eid : Option Int
  ename : Option PyValue
  props : List (String × PyValue)
  deriving Repr, DecidableEq

/-- Dict lookup with last-binding-wins semantics. -/
def dictGet? : List (String × PyValue) → String → Option PyValue
  | [], _ => Option.none
  | p :: rest, k =>
    match dictGet? rest k with
    | Option.some v => Option.some v
    | Option.none => if p.1 = k then Option.some p.2 else Option.none

/-- `entity.key().id_or_name()` (None for an unsaved auto-assigned key). -/
def Entity.id_or_name (e : Entity) : PyValue :=
  match e.eid with
  | some n => .int n
  | Option.none =>
    match e.ename with
    | some v => v
    | Option.none => .none

/-- `entity[k]`; a missing column raises `KeyError` in Python (modelled as
None, not exercised: the flows verified below only look up stored
columns). -/
def Entity.getItem (e : Entity) (k : String) : PyValue :=
  (dictGet? e.props k).getD .none

/-! ## Unique-constraint cache -/

/-- An operation issued against the Django cache. -/
inductive CacheOp where
  | set (key : String) (value : Entity) (timeout : Nat)
  | delete (key : String)
  deriving Repr, DecidableEq

def CacheOp.key : CacheOp → String
  | .set k _ _ => k
  | .delete k => k

def DEFAULT_CACHE_TIMEOUT : Nat := 10

/-- `model._meta.get_field(y).column`; an unresolvable name raises
`FieldDoesNotExist` in Python (modelled as the name itself, not
exercised). -/
def get_field_column (m : Model) (y : String) : String :=
  ((m.mfields.find? (fun f => f.name = y)).map (fun f => f.column)).getD y

/-- `get_uniques_from_model`: the column lists of `unique_together` plus a
singleton list per field declared `unique`. -/
def get_uniques_from_model (m : Model) : List (List String) :=
  m.unique_together.map (fun combo => combo.map (get_field_column m)) ++
    (m.mfields.filter (fun f => f.unique)).map (fun f => [f.column])

/-- Stable insertion step of Python's `sorted` (ascending by `key`; equal
keys keep their relative order). -/
def pyInsertKeyed (key : α → String) (x : α) : List α → List α
  | [] => [x]
  | y :: ys => if key x < key y then x :: y :: ys else y :: pyInsertKeyed key x ys

/-- Python's stable `sorted(l, key=key)`. -/
def pySortKeyed (key : α → String) (l : List α) : List α :=
  l.foldl (fun acc x => pyInsertKeyed key x acc) []

/-- `generate_unique_key`: `'%s.%s|' % (app_label, kind)` followed by the
`'|'`-joined `'%s:%s'` pairs, sorted by field name. -/
def generate_unique_key (m : Model) (fields_and_values : List (String × PyValue)) : String :=
  let sorted := pySortKeyed Prod.fst fields_and_values
  m.app_label ++ "." ++ get_datastore_kind m ++ "|" ++
    String.intercalate "|" (sorted.map (fun p => p.1 ++ ":" ++ pyStr p.2))

/-- The `key_parts` loop shared by `cache_entity` and `uncache_entity`: the
primary-key column falls back to the entity's assigned identity when it is
not stored as a property. -/
def unique_key_parts (m : Model) (e : Entity) (combo : List String) : List (String × PyValue) :=
  combo.map (fun x =>
    (x, if x = m.pk_column ∧ (dictGet? e.props x).isNone then e.id_or_name
        else e.getItem x))

/-- `cache_entity`: one `cache.set(key, entity, DEFAULT_CACHE_TIMEOUT)` per
unique combination. -/
def cache_entity (m : Model) (e : Entity) : List CacheOp :=
  (get_uniques_from_model m).map
    (fun combo =>
      .set (generate_unique_key m (unique_key_parts m e combo)) e DEFAULT_CACHE_TIMEOUT)

/-- `uncache_entity`: one `cache.delete(key)` per unique combination. -/
def uncache_entity (m : Model) (e : Entity) : List CacheOp :=
  (get_uniques_from_model m).map
    (fun combo => .delete (generate_unique_key m (unique_key_parts m e combo)))

/-! ## The entity mapper (`django_instance_to_entity`) -/

/-- The truncation warning emitted for oversized string keys
(`warnings.warn("Truncating primary key ...", RuntimeWarning)`). -/
inductive Warning where
  | truncation
  deriving Repr, DecidableEq

/-- The constraint-violation errors the mapper raises before any store
round-trip: `IntegrityError` for a non-nullable field set to None and
`ValueError` for an invalid primary-key value. -/
inductive MapperError where
  | integrityError (field : String)
  | valueError (msg : String)
  deriving Repr, DecidableEq

/-- A model instance as the mapper reads it: attribute values by `attname`
(already carrying what `pre_save`/`get_db_prep_save` produce — those are
framework hooks outside this backend, modelled as the stored attribute) and
the accessor names of one-to-one children that exist on this instance
(`DoesNotExist` is modelled by absence). -/
structure Instance where
  attrs : List (String × PyValue)
  present_children : List String
  deriving Repr

def Instance.getattr (i : Instance) (a : String) : PyValue :=
  ((i.attrs.find? (fun p => p.1 = a)).map (fun p => p.2)).getD .none

/-- A special-index transform (`REQUIRES_SPECIAL_INDEXES[index]`): a derived
column name per source column and a value transform. -/
structure Indexer where
  indexed_column_name : String → String
  prep_value_for_database : PyValue → PyValue

/-- The loaded special-index registry: `special_indexes_for_column(model,
column)` keyed by the model's `db_table` and the column. -/
def SpecialIndexRegistry := String → String → List Indexer

/-- `get_prepared_db_value`: the framework's `pre_save`/`get_db_prep_save`
hooks (identity in this model — `raw` only skips `pre_save`) followed by
the Value Codec. -/
def get_prepared_db_value (inst : Instance) (f : Field) (_raw : Bool) : PyValue :=
  value_for_db (inst.getattr f.attname) f

/-- `value_from_instance` inside `django_instance_to_entity`: rejects a
non-nullable non-primary-key field resolving to None, and reports whether
the field is the primary key of the inheritance root. -/
def value_from_instance (inst : Instance) (raw : Bool) (root_table : String)
    (f : Field) : Except MapperError (PyValue × Bool) :=
  let value := get_prepared_db_value inst f raw
  if !f.null && !f.primary_key && pyIsNone value then
    .error (.integrityError f.name)
  else
    .ok (value, f.primary_key && f.owner == root_table)

/-- The `for field in fields` loop of the mapper: accumulates the property
dict (append-with-shadow semantics), tracks the primary-key value, and
attaches every registered special-index column computed from the field's
prepared value. -/
def processFields (reg : SpecialIndexRegistry) (model_table root_table : String)
    (inst : Instance) (raw : Bool) :
    List Field → List (String × PyValue) → PyValue →
    Except MapperError (List (String × PyValue) × PyValue)
  | [], acc, pk => .ok (acc, pk)
  | f :: rest, acc, pk =>
    match value_from_instance inst raw root_table f with
    | .error e => .error e
    | .ok (value, is_pk) =>
      let acc1 := if is_pk then acc else acc ++ [(f.column, value)]
      let pk1 := if is_pk then value else pk
      let acc2 := acc1 ++ (reg model_table f.column).map
        (fun ix => (ix.indexed_column_name f.column, ix.prep_value_for_database value))
      processFields reg model_table root_table inst raw rest acc2 pk1

/-- The non-abstract ancestors (`[x for x in get_parent_list() if not
x._meta.abstract]`) that switch the mapper into polymodel mode. -/
def concreteParents (m : Model) : List Model :=
  m.get_parent_list.filter (fun p => !p.abstract)

def usesInheritance (m : Model) : Bool := !(concreteParents m).isEmpty

/-- `inheritance_root`: starts at the model; each ancestor without parents
overwrites it (the loop assigns without breaking). -/
def inheritanceRoot (m : Model) : Model :=
  if usesInheritance m then
    m.get_parent_list.foldl (fun acc p => if p.parents.isEmpty then p else acc) m
  else m

/-- The polymodel `class` discriminator: the model's own `db_table`
followed by every ancestor's, in `get_parent_list` order. -/
def inheritanceClasses (m : Model) : List String :=
  m.db_table :: m.get_parent_list.map Model.db_table

/-- In polymodel mode every ancestor's fields are appended to the field
list. -/
def extendedFields (m : Model) (fields0 : List Field) : List Field :=
  if usesInheritance m then fields0 ++ m.get_parent_list.flatMap Model.mfields
  else fields0

/-- One level of one-to-one child fields pulled in when the child exists on
the instance. -/
def childFields (m : Model) (inst : Instance) : List Field :=
  (m.related_objects.filter (fun r => inst.present_children.contains r.1)).flatMap
    Prod.snd

/-- The full field list the mapper's main loop runs over. -/
def effective_fields (m : Model) (fields0 : List Field) (inst : Instance) : List Field :=
  extendedFields m fields0 ++ childFields m inst

/-- `len(value)` for a basestring value. -/
def pyStrLen : PyValue → Nat
  | .ustr s => s.data.length
  | .text s => s.data.length
  | .bytes bs => bs.length
  | .blob bs => bs.length
  | _ => 0

/-- `value[:k]` for a basestring value. -/
def pyTruncate (k : Nat) : PyValue → PyValue
  | .ustr s => .ustr (String.mk (s.data.take k))
  | .text s => .text (String.mk (s.data.take k))
  | .bytes bs => .bytes (bs.take k)
  | .blob bs => .blob (bs.take k)
  | v => v

/-- `value[k:]` for a basestring value. -/
def pyDropStr (k : Nat) : PyValue → PyValue
  | .ustr s => .ustr (String.mk (s.data.drop k))
  | .text s => .text (String.mk (s.data.drop k))
  | .bytes bs => .bytes (bs.drop k)
  | .blob bs => .blob (bs.drop k)
  | v => v

/-- The `if primary_key:` block of the mapper: a truthy integer key becomes
`id=`, a truthy string key becomes `name=` after the 500-character clamp
(with a truncation warning at length ≥ 500), any other truthy value raises
`ValueError`, and a falsy key yields no kwargs at all. -/
def pkKwargs (pk : PyValue) :
    Except MapperError (Option Int × Option PyValue × List Warning) :=
  if pyTruthy pk then
    match pk with
    | .int n => .ok (some n, Option.none, [])
    | .ustr _ | .bytes _ | .text _ | .blob _ =>
      if 500 ≤ pyStrLen pk then
        .ok (Option.none, some (pyTruncate 500 pk), [.truncation])
      else
        .ok (Option.none, some pk, [])
    | _ => .error (.valueError "Invalid primary key value")
  else .ok (Option.none, Option.none, [])

/-- `django_instance_to_entity`. -/
def django_instance_to_entity (reg : SpecialIndexRegistry) (model : Model)
    (fields0 : List Field) (raw : Bool) (inst : Instance) :
    Except MapperError (Entity × List Warning) :=
  let db_table := get_datastore_kind model
  let root := inheritanceRoot model
  match processFields reg model.db_table root.db_table inst raw
      (effective_fields model fields0 inst) [] .none with
  | .error e => .error e
  | .ok (field_values, primary_key) =>
    match pkKwargs primary_key with
    | .error e => .error e
    | .ok (eid, ename, warns) =>
      .ok ({ kind := db_table, eid := eid, ename := ename,
             props := field_values ++
               (if usesInheritance model then
                 [("class", .strlist (inheritanceClasses model))] else []) }, warns)

/-! ## Primary-key lookups and flush -/

/-- `Key.from_path(kind, id_or_name)`. -/
structure DSKey where
  kind : String
  keyval : PyValue
  deriving Repr, DecidableEq

/-- `DatabaseOperations.prep_lookup_key`.  NOTE: the source truncates
first (`value = value[:500]`) and only then computes the leftover
(`left = value[500:]`) from the already-truncated string, so `left` is
always empty and the warning is unreachable. -/
def prep_lookup_key (m : Model) (value : PyValue) (_f : Field) :
    DSKey × List Warning :=
  if isInstBasestring value then
    let value1 := pyTruncate 500 value
    let left := pyDropStr 500 value1
    let warns := if pyTruthy left then [Warning.truncation] else []
    (⟨get_datastore_kind m, value1⟩, warns)
  else (⟨get_datastore_kind m, value⟩, [])

/-- A `FlushCommand` over one table. -/
structure FlushCommand where
  table : String
  deriving Repr, DecidableEq

/-- `DatabaseOperations.sql_flush`: one `FlushCommand` per table; under
`COMPLETE_FLUSH_WHILE_TESTING` *and* a `test` process invocation the table
list is replaced by the store's dynamically discovered kinds
(`metadata.get_kinds()`, supplied here as `store_kinds`). -/
def sql_flush (st : Settings) (argv : List String)
    (store_kinds tables : List String) : List FlushCommand :=
  let tables :=
    if st.COMPLETE_FLUSH_WHILE_TESTING && argv.contains "test" then store_kinds
    else tables
  tables.map FlushCommand.mk

/-! ## The cursor shim (`Cursor.fetchone` / `Cursor.fetchmany`)

The `SelectCommand` this cursor consumes lives in `commands.py`, which is
not part of the sources; its observable surface is modelled from the spec:
`execute()` leaves either a bare integer count (aggregate) or an opaque
forward-only result sequence in `results`, `next_result()` yields the next
entity or raises `StopIteration`, and the command carries the queried
columns, the model, and per-column post-read conversions. -/

/-- Modelled from the spec: the value of `SelectCommand.results` — a bare
aggregate count or the opaque (always-truthy) row sequence. -/
inductive SelectResults where
  | agg (n : Int)
  | rows (es : List Entity)

/-- `bool(results)`: an integer count is falsy at zero; the opaque result
cursor object of a row query is always truthy. -/
def SelectResults.truthy : SelectResults → Bool
  | .agg n => n != 0
  | .rows _ => true

/-- Modelled from the spec: the executed `SelectCommand` as the cursor sees
it; `pos` is the consumption state of the forward-only `next_result()`. -/
structure SelectCmd where
  results : SelectResults
  pos : Nat
  queried_fields : List String
  qmodel : Model
  field_conversions : List (String × (PyValue → PyValue))

/-- Modelled from the spec: `get_field_from_column` of `commands.py` looks
up the declared field for a column. -/
def get_field_from_column (m : Model) (col : String) : Option Field :=
  m.mfields.find? (fun f => f.column = col)

/-- Placeholder field for a column with no declared field (the source would
pass `None` into `convert_values`; not exercised). -/
def defaultField : Field :=
  ⟨"", "", "", .RawField, true, false, false, 0, 0, ""⟩

/-- The dummy `Cursor`: the last select command and the identity
bookkeeping for `__key__` columns (the source keeps `Key` objects and calls
`id_or_name()` at use; the identities are stored directly here). -/
structure Cursor where
  cmd : SelectCmd
  returned_ids : List PyValue

/-- The per-column loop of `fetchone`: `__key__` yields the identity (and
records it), any other column decodes the stored value through
`convert_values` and applies the query plan's column conversion.  Returns
the row and the identities recorded. -/
def buildRow (st : Settings) (m : Model)
    (fcs : List (String × (PyValue → PyValue))) (entity : Entity) :
    List String → List PyValue × List PyValue
  | [] => ([], [])
  | col :: rest =>
    let p := buildRow st m fcs entity rest
    if col = "__key__" then
      (entity.id_or_name :: p.1, entity.id_or_name :: p.2)
    else
      let field := (get_field_from_column m col).getD defaultField
      let v0 := convert_values st ((dictGet? entity.props col).getD .none) field
      let v := match fcs.find? (fun q => q.1 = col) with
        | some q => q.2 v0
        | Option.none => v0
      (v :: p.1, p.2)

/-- `Cursor.fetchone`: an aggregate result is returned as the 1-tuple
`(count,)` without consuming anything; a row result advances the
forward-only sequence, `StopIteration`/`None` ends it. -/
def fetchone (st : Settings) (c : Cursor) : Option (List PyValue) × Cursor :=
  match c.cmd.results with
  | .agg n => (some [.int n], c)
  | .rows es =>
    match es.get? c.cmd.pos with
    | Option.none => (Option.none, c)
    | some entity =>
      let c1 : Cursor := { c with cmd := { c.cmd with pos := c.cmd.pos + 1 } }
      let p := buildRow st c1.cmd.qmodel c1.cmd.field_conversions entity
        c1.cmd.queried_fields
      (some p.1, { c1 with returned_ids := c1.returned_ids ++ p.2 })

/-- The `while i < size` loop of `fetchmany`. -/
def fetchmanyLoop (st : Settings) : Nat → Cursor → List (List PyValue) × Cursor
  | 0, c => ([], c)
  | k + 1, c =>
    match fetchone st c with
    | (Option.none, c1) => ([], c1)
    | (some r, c1) =>
      let p := fetchmanyLoop st k c1
      (r :: p.1, p.2)

/-- `Cursor.fetchmany`: empty if `results` is falsy, else up to `size`
rows via `fetchone`. -/
def fetchmany (st : Settings) (size : Nat) (c : Cursor) :
    List (List PyValue) × Cursor :=
  if !c.cmd.results.truthy then ([], c)
  else fetchmanyLoop st size c

/-! ## Concrete fixtures for counterexamples and witnesses -/

/-- A registry with no special indexes loaded. -/
def emptyRegistry : SpecialIndexRegistry := fun _ _ => []

/-- A `CharField` primary key on a model with a 600-character key value. -/
def strPkField : Field :=
  ⟨"id", "id", "id", .CharField, false, true, false, 0, 0, "longkey_table"⟩

def strPkModel : Model :=
  .mk "app" "longkey_table" "id" [] [strPkField] [] false []

def longKeyString : String := String.mk (List.replicate 600 'x')

def clampedKeyString : String := String.mk (List.replicate 500 'x')

def strPkInstance : Instance := ⟨[("id", .ustr longKeyString)], []⟩

/-- A `FloatField` primary key whose value is the float `0.0`. -/
def floatPkField : Field :=
  ⟨"fid", "fid", "fid", .FloatField, false, true, false, 0, 0, "float_table"⟩

def floatPkModel : Model :=
  .mk "app" "float_table" "fid" [] [floatPkField] [] false []

def floatPkInstance : Instance := ⟨[("fid", .float 0 0)], []⟩

/-- A non-nullable `CharField` with no value on the instance. -/
def reqField : Field :=
  ⟨"email", "email", "email", .CharField, false, false, false, 0, 0, "req_table"⟩

def reqModel : Model := .mk "app" "req_table" "rid" [] [reqField] [] false []

def emptyInstance : Instance := ⟨[], []⟩

/-- A two-level concrete hierarchy `Base -> Child`. -/
def baseIdField : Field :=
  ⟨"id", "id", "id", .AutoField, false, true, false, 0, 0, "base_table"⟩

def baseNameField : Field :=
  ⟨"bname", "bname", "bname", .CharField, false, false, false, 0, 0, "base_table"⟩

def baseModel : Model :=
  .mk "app" "base_table" "id" [] [baseIdField, baseNameField] [] false []

def childNameField : Field :=
  ⟨"cname", "cname", "cname", .CharField, false, false, false, 0, 0, "child_table"⟩

def childModel : Model :=
  .mk "app" "child_table" "id" [] [childNameField] [baseModel] false []

def childInstance : Instance :=
  ⟨[("id", .int 7), ("bname", .ustr "b"), ("cname", .ustr "c")], []⟩

/-- A string primary key carrying one registered special-index transform. -/
def idxIndexer : Indexer :=
  ⟨fun c => "_idx_contains_" ++ c, fun v => v⟩

def idxRegistry : SpecialIndexRegistry :=
  fun t c => if t = "ipk_table" ∧ c = "ipk" then [idxIndexer] else []

def ipkField : Field :=
  ⟨"ipk", "ipk", "ipk", .CharField, false, true, false, 0, 0, "ipk_table"⟩

def ipkModel : Model := .mk "app" "ipk_table" "ipk" [] [ipkField] [] false []

def ipkInstance : Instance := ⟨[("ipk", .ustr "k1")], []⟩

/-- An `IntegerField` primary key whose value is `0`. -/
def zeroPkField : Field :=
  ⟨"zid", "zid", "zid", .IntegerField, false, true, false, 0, 0, "zero_table"⟩

def zeroPkModel : Model := .mk "app" "zero_table" "zid" [] [zeroPkField] [] false []

def zeroPkInstance : Instance := ⟨[("zid", .int 0)], []⟩

/-- A trivial model and a cursor holding an aggregate count of 3. -/
def trivModel : Model := .mk "app" "t" "id" [] [] [] false []

def aggCursor : Cursor := ⟨⟨.agg 3, 0, [], trivModel, []⟩, []⟩

/-- The primary-key value the mapper's field loop computes (the last
primary-key field of the inheritance root wins). -/
def pkValueOf (inst : Instance) (raw : Bool) (root_table : String)
    (fields : List Field) : PyValue :=
  fields.foldl
    (fun pk f => if f.primary_key && f.owner == root_table
      then get_prepared_db_value inst f raw else pk) .none

/-- The property-list keys one field contributes: its own column (unless it
is the root's primary key) followed by its derived special-index columns. -/
def contribKeys (reg : SpecialIndexRegistry) (model_table root_table : String)
    (f : Field) : List String :=
  (if f.primary_key && f.owner == root_table then [] else [f.column]) ++
    (reg model_table f.column).map (fun ix => ix.indexed_column_name f.column)

/-- The property-list entries one field contributes. -/
def fieldContrib (reg : SpecialIndexRegistry) (model_table root_table : String)
    (inst : Instance) (raw : Bool) (f : Field) : List (String × PyValue) :=
  let value := get_prepared_db_value inst f raw
  (if f.primary_key && f.owner == root_table then [] else [(f.column, value)]) ++
    (reg model_table f.column).map
      (fun ix => (ix.indexed_column_name f.column, ix.prep_value_for_database value))

/-- The key shape asserted by the spec for C4, built following the claim's
words: `app_label.kind|field1:value1|field2:value2…` with the field names
sorted lexicographically first and the primary-key substitution applied per
field. -/
def claimUniqueKey (m : Model) (e : Entity) (combo : List String) : String :=
  m.app_label ++ "." ++ get_datastore_kind m ++ "|" ++
    String.intercalate "|"
      ((pySortKeyed id combo).map (fun x =>
        x ++ ":" ++ pyStr (if x = m.pk_column ∧ (dictGet? e.props x).isNone
          then e.id_or_name else e.getItem x)))

/-- The body of the serialization (before the sign): the zero-padded integer
digits and, when `decimal_places` is positive, a point and the padded
fraction digits. -/
def decBody (n md dp : Nat) : List Char :=
  if dp = 0 then (natDigits (md - dp) (n / 10 ^ dp)).map digChar
  else (natDigits (md - dp) (n / 10 ^ dp)).map digChar ++
    '.' :: (natDigits dp (n % 10 ^ dp)).map digChar

/-! ## Digit lemmas -/

theorem digitsVal_append_single (ds : List Nat) (d : Nat) :
    digitsVal (ds ++ [d]) = digitsVal ds * 10 + d := by
  simp [digitsVal, List.foldl_append]

theorem digitsVal_natDigits (w n : Nat) (h : n < 10 ^ w) :
    digitsVal (natDigits w n) = n := by
  induction w generalizing n with
  | zero =>
    interval_cases n
    rfl
  | succ w ih =>
    have hdiv : n / 10 < 10 ^ w := by
      have h10 : (0:Nat) < 10 := by norm_num
      rw [Nat.div_lt_iff_lt_mul h10]
      calc n < 10 ^ (w + 1) := h
        _ = 10 ^ w * 10 := by ring
    rw [natDigits, digitsVal_append_single, ih _ hdiv, Nat.mul_comm]
    exact Nat.div_add_mod n 10

theorem natDigits_length (w n : Nat) : (natDigits w n).length = w := by
  induction w generalizing n with
  | zero => rfl
  | succ w ih => simp [natDigits, ih]

theorem natDigits_lt (w n : Nat) : ∀ d ∈ natDigits w n, d < 10 := by
  induction w generalizing n with
  | zero => intro d hd; simp [natDigits] at hd
  | succ w ih =>
    intro d hd
    simp only [natDigits, List.mem_append, List.mem_singleton] at hd
    rcases hd with hd | hd
    · exact ih _ d hd
    · subst hd; exact Nat.mod_lt _ (by norm_num)

theorem charDigit_digChar (d : Nat) (h : d < 10) : charDigit (digChar d) = d := by
  interval_cases d <;> rfl

theorem digChar_ne_dot (d : Nat) (h : d < 10) : digChar d ≠ '.' := by
  interval_cases d <;> decide

theorem digChar_ne_dash (d : Nat) (h : d < 10) : digChar d ≠ '-' := by
  interval_cases d <;> decide

/-! ## Round-trip lemmas for the decimal serialization -/

theorem splitPoint_append_dot (xs ys : List Char) (h : '.' ∉ xs) :
    splitPoint (xs ++ '.' :: ys) = (xs, ys) := by
  induction xs with
  | nil => simp [splitPoint]
  | cons a as ih =>
    have ha : a ≠ '.' := fun e => h (e ▸ List.mem_cons_self a as)
    have has : '.' ∉ as := fun m => h (List.mem_cons_of_mem _ m)
    simp [splitPoint, ha, ih has]

theorem splitPoint_no_dot (xs : List Char) (h : '.' ∉ xs) :
    splitPoint xs = (xs, []) := by
  induction xs with
  | nil => rfl
  | cons a as ih =>
    have ha : a ≠ '.' := fun e => h (e ▸ List.mem_cons_self a as)
    have has : '.' ∉ as := fun m => h (List.mem_cons_of_mem _ m)
    simp [splitPoint, ha, ih has]

theorem map_charDigit_digChar (ds : List Nat) (h : ∀ d ∈ ds, d < 10) :
    (ds.map digChar).map charDigit = ds := by
  induction ds with
  | nil => rfl
  | cons d rest ih =>
    simp only [List.map_cons]
    rw [charDigit_digChar d (h d (List.mem_cons_self d rest)),
      ih (fun x hx => h x (List.mem_cons_of_mem _ hx))]

theorem dot_not_mem_mapped_digits (ds : List Nat) (h : ∀ d ∈ ds, d < 10) :
    '.' ∉ ds.map digChar := by
  intro hm
  rcases List.mem_map.mp hm with ⟨d, hd, he⟩
  exact digChar_ne_dot d (h d hd) he

theorem parseUnsignedDecimal_nopoint (ds : List Nat) (h : ∀ d ∈ ds, d < 10) :
    parseUnsignedDecimal (ds.map digChar) = (Int.ofNat (digitsVal ds), 0) := by
  unfold parseUnsignedDecimal
  rw [splitPoint_no_dot _ (dot_not_mem_mapped_digits ds h)]
  simp [map_charDigit_digChar ds h, digitsVal]

theorem parseUnsignedDecimal_point (ds fs : List Nat)
    (hds : ∀ d ∈ ds, d < 10) (hfs : ∀ d ∈ fs, d < 10) :
    parseUnsignedDecimal (ds.map digChar ++ '.' :: fs.map digChar) =
      (Int.ofNat (digitsVal ds * 10 ^ fs.length + digitsVal fs), fs.length) := by
  unfold parseUnsignedDecimal
  rw [splitPoint_append_dot _ _ (dot_not_mem_mapped_digits ds hds)]
  simp [map_charDigit_digChar ds hds, map_charDigit_digChar fs hfs]

theorem pyDecimalOfString_cons_dash (l : List Char) :
    pyDecimalOfString (String.mk ('-' :: l)) =
      .dec (-(parseUnsignedDecimal l).1) (parseUnsignedDecimal l).2 := by
  simp [pyDecimalOfString]

theorem pyDecimalOfString_no_dash (l : List Char) (h : l.head? ≠ some '-') :
    pyDecimalOfString (String.mk l) =
      .dec (parseUnsignedDecimal l).1 (parseUnsignedDecimal l).2 := by
  simp [pyDecimalOfString, h]

theorem decimal_to_string_data (c : Int) (q md dp : Nat) :
    (decimal_to_string c q md dp).data =
      (if c < 0 then '-' :: decBody (c.natAbs * 10 ^ (dp - q)) md dp
       else decBody (c.natAbs * 10 ^ (dp - q)) md dp) := by
  by_cases hc : c < 0 <;> by_cases hdp0 : dp = 0 <;>
    simp [decimal_to_string, decBody, hc, hdp0]

theorem decBody_head_ne_dash (n md dp : Nat) :
    (decBody n md dp).head? ≠ some '-' := by
  unfold decBody
  rcases hlist : natDigits (md - dp) (n / 10 ^ dp) with _ | ⟨d, rest⟩
  · by_cases hdp0 : dp = 0 <;> simp [hdp0]
  · have hd10 : d < 10 := by
      refine natDigits_lt (md - dp) (n / 10 ^ dp) d ?_
      rw [hlist]; exact List.mem_cons_self _ _
    by_cases hdp0 : dp = 0 <;> simp [hdp0, digChar_ne_dash d hd10]

theorem parseUnsignedDecimal_decBody (n md dp : Nat) (hdp : dp ≤ md)
    (hb : n < 10 ^ md) :
    parseUnsignedDecimal (decBody n md dp) = (Int.ofNat n, dp) := by
  have hpow : (0:Nat) < 10 ^ dp := pow_pos (by norm_num) dp
  have hdivlt : n / 10 ^ dp < 10 ^ (md - dp) := by
    rw [Nat.div_lt_iff_lt_mul hpow, ← pow_add]
    rw [Nat.sub_add_cancel hdp]
    exact hb
  unfold decBody
  by_cases hdp0 : dp = 0
  · subst hdp0
    rw [if_pos rfl, parseUnsignedDecimal_nopoint _ (natDigits_lt _ _)]
    simp only [Nat.pow_zero, Nat.div_one] at hdivlt ⊢
    rw [digitsVal_natDigits _ _ (by simpa using hdivlt)]
  · rw [if_neg hdp0, parseUnsignedDecimal_point _ _ (natDigits_lt _ _) (natDigits_lt _ _)]
    simp only [natDigits_length]
    rw [digitsVal_natDigits _ _ hdivlt,
      digitsVal_natDigits _ _ (Nat.mod_lt _ hpow),
      Nat.div_add_mod']

/-- Parsing the fixed-width serialization recovers the scaled value: the
stored string of a Decimal within the declared precision parses back to the
scaled coefficient over `decimal_places` places. -/
theorem pyDecimalOfString_decimal_to_string (c : Int) (q md dp : Nat)
    (hdp : dp ≤ md)
    (hb : c.natAbs * 10 ^ (dp - q) < 10 ^ md) :
    pyDecimalOfString (decimal_to_string c q md dp) =
      .dec (if c < 0 then -(Int.ofNat (c.natAbs * 10 ^ (dp - q)))
            else Int.ofNat (c.natAbs * 10 ^ (dp - q))) dp := by
  set n := c.natAbs * 10 ^ (dp - q) with hn
  have hdata : pyDecimalOfString (decimal_to_string c q md dp) =
      pyDecimalOfString
        (String.mk (if c < 0 then '-' :: decBody n md dp else decBody n md dp)) := by
    have h := decimal_to_string_data c q md dp
    cases hstr : decimal_to_string c q md dp with
    | mk l =>
      rw [hstr] at h
      simp only [← hn] at h
      rw [show l = (if c < 0 then '-' :: decBody n md dp else decBody n md dp) from h]
  rw [hdata]
  by_cases hc : c < 0
  · rw [if_pos hc, if_pos hc, pyDecimalOfString_cons_dash,
      parseUnsignedDecimal_decBody n md dp hdp hb]
  · rw [if_neg hc, if_neg hc,
      pyDecimalOfString_no_dash _ (decBody_head_ne_dash n md dp),
      parseUnsignedDecimal_decBody n md dp hdp hb]

/-- The serialized string of a decimal within a positive declared precision
is never empty (so it is truthy and `value_from_db_decimal` parses it). -/
theorem decimal_to_string_ne_nil (c : Int) (q md dp : Nat) (hmd : 0 < md)
    (hdp : dp ≤ md) :
    (decimal_to_string c q md dp).data ≠ [] := by
  rw [decimal_to_string_data]
  by_cases hc : c < 0
  · simp [hc]
  · rw [if_neg hc]
    unfold decBody
    by_cases hdp0 : dp = 0
    · rw [if_pos hdp0]
      intro hcon
      have hlen := natDigits_length (md - dp)
        (c.natAbs * 10 ^ (dp - q) / 10 ^ dp)
      rw [List.map_eq_nil_iff] at hcon
      rw [hcon] at hlen
      simp at hlen
      omega
    · simp [hdp0]

/-- C1: Value-codec round trip.  For every supported logical type (string,
text, bytes, date, datetime, time, decimal) and every typed value within
the field's declared precision,
`convert_values(value_for_db(v, field), field) == v`; in particular a
decimal within `(max_digits, decimal_places)` is reproduced exactly. -/
theorem C1_value_codec_round_trip (st : Settings) (f : Field) (v : PyValue)
    (h : supportedValue st (data_types f.cls) f.max_digits f.decimal_places v) :
    pyEqb (convert_values st (value_for_db v f) f) v = true := by
  cases ht : data_types f.cls <;> rw [ht] at h <;> simp only [supportedValue] at h
  case string =>
    obtain ⟨s, rfl⟩ := h
    simp [value_for_db, convert_values, ht, strDecodeIfBytes, baseConvertValues, pyEqb]
  case text =>
    obtain ⟨s, rfl⟩ := h
    simp [value_for_db, convert_values, ht, strDecodeIfBytes, TextWrap,
      baseConvertValues, pyEqb]
  case bytes =>
    obtain ⟨bs, rfl⟩ := h
    simp [value_for_db, convert_values, ht, BlobWrap, baseConvertValues, pyEqb]
  case date =>
    obtain ⟨d, rfl⟩ := h
    simp [value_for_db, convert_values, ht, value_to_db_date, baseConvertValues,
      value_from_db_date, pyEqb]
  case time =>
    obtain ⟨us, rfl⟩ := h
    simp [value_for_db, convert_values, ht, value_to_db_time, baseConvertValues,
      value_from_db_time, pyEqb]
  case datetime =>
    obtain ⟨d, us, rfl⟩ := h
    cases hz : st.USE_TZ <;>
      simp [value_for_db, convert_values, ht, value_to_db_datetime,
        make_timezone_naive, baseConvertValues, value_from_db_datetime, hz, pyEqb]
  case decimal =>
    obtain ⟨c, q, rfl, hq, hdp, hmd, hb⟩ := h
    have hne := decimal_to_string_ne_nil c q f.max_digits f.decimal_places hmd hdp
    have hempty : (decimal_to_string c q f.max_digits f.decimal_places).data.isEmpty = false := by
      rw [Bool.eq_false_iff]
      intro hh
      exact hne (List.isEmpty_iff.mp hh)
    simp only [value_for_db, convert_values, ht, value_to_db_decimal,
      baseConvertValues, value_from_db_decimal, pyTruthy, hempty, Bool.not_false,
      if_true]
    rw [pyDecimalOfString_decimal_to_string c q f.max_digits f.decimal_places hdp hb]
    simp only [pyEqb, beq_iff_eq]
    have hqq : f.decimal_places - q + q = f.decimal_places := Nat.sub_add_cancel hq
    have key : (Int.ofNat (c.natAbs * 10 ^ (f.decimal_places - q))) * 10 ^ q
        = (c.natAbs : Int) * 10 ^ f.decimal_places := by
      rw [Int.ofNat_eq_natCast]
      generalize he : f.decimal_places - q = e at hqq ⊢
      rw [← hqq, pow_add]
      push_cast
      ring
    by_cases hc : c < 0
    · rw [if_pos hc]
      have habs : ((c.natAbs : Int)) = -c := Int.ofNat_natAbs_of_nonpos (le_of_lt hc)
      rw [neg_mul, key, habs]
      ring
    · rw [if_neg hc]
      have habs : ((c.natAbs : Int)) = c := Int.natAbs_of_nonneg (not_lt.mp hc)
      rw [key, habs]

/-- Witness for C1: the decimal `-123.45` in a `DecimalField(max_digits=5,
decimal_places=2)` round-trips exactly. -/
theorem C1_value_codec_round_trip_witness :
    pyEqb (convert_values ⟨true, false⟩
        (value_for_db (.dec (-12345) 2) sampleDecimalField) sampleDecimalField)
      (.dec (-12345) 2) = true :=
  C1_value_codec_round_trip ⟨true, false⟩ sampleDecimalField (.dec (-12345) 2)
    ⟨-12345, 2, rfl, by decide, by decide, by decide, by decide⟩

/-! ## Sorting commutes with pairing (for the unique-cache key shape) -/

theorem pyInsertKeyed_fst_map (f : String → PyValue) (x : String) (ys : List String) :
    pyInsertKeyed Prod.fst (x, f x) (ys.map (fun y => (y, f y))) =
      (pyInsertKeyed id x ys).map (fun y => (y, f y)) := by
  induction ys with
  | nil => rfl
  | cons y ys ih =>
    simp only [List.map_cons, pyInsertKeyed, id]
    by_cases h : x < y
    · simp [h]
    · simp [h, ih]

theorem pySortKeyed_foldl_fst_map (f : String → PyValue) (l acc : List String) :
    (l.map (fun x => (x, f x))).foldl (fun a x => pyInsertKeyed Prod.fst x a)
        (acc.map (fun x => (x, f x))) =
      (l.foldl (fun a x => pyInsertKeyed id x a) acc).map (fun x => (x, f x)) := by
  induction l generalizing acc with
  | nil => rfl
  | cons x xs ih =>
    simp only [List.map_cons, List.foldl_cons]
    rw [pyInsertKeyed_fst_map]
    exact ih _

theorem pySortKeyed_fst_map (f : String → PyValue) (l : List String) :
    pySortKeyed Prod.fst (l.map (fun x => (x, f x))) =
      (pySortKeyed id l).map (fun x => (x, f x)) := by
  unfold pySortKeyed
  have h := pySortKeyed_foldl_fst_map f l []
  simpa using h

/-- C4: the unique-constraint cache key has the form
`app_label.kind|field1:value1|field2:value2…` with the pairs sorted
lexicographically by field (column) name; a combination referencing the
primary-key column absent from the record substitutes the assigned
identity; and `cache_entity` stores the full record under each such key
with the bounded default TTL of 10. -/
theorem C4_unique_cache_key_shape (m : Model) (e : Entity) :
    cache_entity m e = (get_uniques_from_model m).map
      (fun combo => CacheOp.set (claimUniqueKey m e combo) e 10) := by
  unfold cache_entity
  apply List.map_congr_left
  intro combo _
  unfold generate_unique_key claimUniqueKey unique_key_parts
  simp only [pySortKeyed_fst_map, List.map_map, DEFAULT_CACHE_TIMEOUT]
  rfl

/-- C5: `uncache_entity` deletes exactly the keys `cache_entity` stores
under — one delete per cached key, in the same order, and nothing else. -/
theorem C5_uncache_deletes_exactly_cached_keys (m : Model) (e : Entity) :
    uncache_entity m e = (cache_entity m e).map (fun op => CacheOp.delete op.key) := by
  unfold uncache_entity cache_entity
  rw [List.map_map]
  rfl

/-! ## Dict-lookup lemmas -/

theorem dictGet?_append (a b : List (String × PyValue)) (k : String) :
    dictGet? (a ++ b) k =
      match dictGet? b k with
      | some v => some v
      | Option.none => dictGet? a k := by
  induction a with
  | nil =>
    simp only [List.nil_append]
    cases dictGet? b k <;> rfl
  | cons p rest ih =>
    simp only [List.cons_append, dictGet?, List.append_eq]
    rw [ih]
    cases hb : dictGet? b k <;> cases hr : dictGet? rest k <;> simp

theorem dictGet?_not_mem (a : List (String × PyValue)) (k : String)
    (h : ∀ p ∈ a, p.1 ≠ k) : dictGet? a k = Option.none := by
  induction a with
  | nil => rfl
  | cons p rest ih =>
    have hp : p.1 ≠ k := h p (List.mem_cons_self p rest)
    have hr := ih (fun q hq => h q (List.mem_cons_of_mem _ hq))
    simp [dictGet?, hr, hp]

/-- In a property list whose keys are distinct, lookup returns the unique
binding. -/
theorem dictGet?_of_nodup_mem (l : List (String × PyValue))
    (hnd : (l.map Prod.fst).Nodup) (k : String) (v : PyValue)
    (hm : (k, v) ∈ l) : dictGet? l k = some v := by
  induction l with
  | nil => cases hm
  | cons p rest ih =>
    rw [List.map_cons, List.nodup_cons] at hnd
    rcases List.mem_cons.mp hm with heq | htail
    · subst heq
      have hk : ∀ q ∈ rest, q.1 ≠ k := by
        intro q hq hqk
        exact hnd.1 (List.mem_map.mpr ⟨q, hq, hqk⟩)
      simp [dictGet?, dictGet?_not_mem rest k hk]
    · simp [dictGet?, ih hnd.2 htail]

/-! ## The mapper's field loop -/

theorem value_from_instance_ok (inst : Instance) (raw : Bool)
    (root_table : String) (f : Field) (value : PyValue) (is_pk : Bool)
    (h : value_from_instance inst raw root_table f = .ok (value, is_pk)) :
    value = get_prepared_db_value inst f raw ∧
      is_pk = (f.primary_key && f.owner == root_table) := by
  simp only [value_from_instance] at h
  split at h
  · simp at h
  · simp at h
    exact ⟨h.1.symm, h.2.symm⟩

theorem value_from_instance_error_of_violation (inst : Instance) (raw : Bool)
    (root_table : String) (f : Field)
    (hnull : f.null = false) (hpk : f.primary_key = false)
    (hnone : pyIsNone (get_prepared_db_value inst f raw) = true) :
    value_from_instance inst raw root_table f = .error (.integrityError f.name) := by
  unfold value_from_instance
  rw [if_pos (by simp [hnull, hpk, hnone])]

/-- Success characterization of the field loop: the accumulated properties
are the per-field contributions in order, and the primary key is the fold
over the primary-key fields. -/
theorem processFields_ok (reg : SpecialIndexRegistry)
    (model_table root_table : String) (inst : Instance) (raw : Bool)
    (fields : List Field) (acc : List (String × PyValue)) (pk : PyValue)
    (fvs : List (String × PyValue)) (pk' : PyValue)
    (h : processFields reg model_table root_table inst raw fields acc pk =
      .ok (fvs, pk')) :
    fvs = acc ++ fields.flatMap (fieldContrib reg model_table root_table inst raw) ∧
      pk' = fields.foldl
        (fun pk f => if f.primary_key && f.owner == root_table
          then get_prepared_db_value inst f raw else pk) pk := by
  induction fields generalizing acc pk with
  | nil =>
    simp only [processFields] at h
    simp at h
    simp [h.1, h.2]
  | cons f rest ih =>
    simp only [processFields] at h
    rcases hv : value_from_instance inst raw root_table f with e | ⟨value, is_pk⟩
    · rw [hv] at h; exact absurd h (by simp)
    · rw [hv] at h
      obtain ⟨hval, hispk⟩ := value_from_instance_ok inst raw root_table f value is_pk hv
      obtain ⟨h1, h2⟩ := ih _ _ h
      constructor
      · rw [h1, List.flatMap_cons, fieldContrib, hispk, hval]
        cases hb : (f.primary_key && f.owner == root_table) <;>
          simp [hb, List.append_assoc]
      · rw [h2, List.foldl_cons, hispk, hval]

/-- A nullability violation anywhere in the field list makes the loop
fail. -/
theorem processFields_error_of_violation (reg : SpecialIndexRegistry)
    (model_table root_table : String) (inst : Instance) (raw : Bool)
    (fields : List Field) (acc : List (String × PyValue)) (pk : PyValue)
    (h : ∃ f ∈ fields, f.null = false ∧ f.primary_key = false ∧
      pyIsNone (get_prepared_db_value inst f raw) = true) :
    ∃ e, processFields reg model_table root_table inst raw fields acc pk =
      .error e := by
  induction fields generalizing acc pk with
  | nil => obtain ⟨f, hf, _⟩ := h; cases hf
  | cons f rest ih =>
    obtain ⟨g, hg, hgnull, hgpk, hgnone⟩ := h
    rcases List.mem_cons.mp hg with rfl | htail
    · refine ⟨.integrityError g.name, ?_⟩
      simp only [processFields]
      rw [value_from_instance_error_of_violation inst raw root_table g hgnull hgpk hgnone]
    · rcases hv : value_from_instance inst raw root_table f with e | ⟨value, is_pk⟩
      · exact ⟨e, by simp only [processFields]; rw [hv]⟩
      · obtain ⟨e, he⟩ := ih _ _ ⟨g, htail, hgnull, hgpk, hgnone⟩
        exact ⟨e, by simp only [processFields]; rw [hv]; exact he⟩

/-! ## Structural lemmas for the mapper -/

theorem get_parent_list_eq (m : Model) :
    m.get_parent_list = parentListAux m.parents := by
  cases m; rfl

theorem parentListAux_single (p : Model) (h : p.parents = []) :
    parentListAux [p] = [p] := by
  simp [parentListAux, get_parent_list_eq, h]

theorem dictGet?_append_singleton (a : List (String × PyValue)) (k : String)
    (v : PyValue) : dictGet? (a ++ [(k, v)]) k = some v := by
  rw [dictGet?_append]
  simp [dictGet?]

theorem fieldContrib_keys (reg : SpecialIndexRegistry)
    (model_table root_table : String) (inst : Instance) (raw : Bool) (f : Field) :
    (fieldContrib reg model_table root_table inst raw f).map Prod.fst =
      contribKeys reg model_table root_table f := by
  unfold fieldContrib contribKeys
  cases hb : (f.primary_key && f.owner == root_table) <;>
    simp [hb, List.map_map, Function.comp]

theorem flatMap_fieldContrib_keys (reg : SpecialIndexRegistry)
    (model_table root_table : String) (inst : Instance) (raw : Bool)
    (fields : List Field) :
    ((fields.flatMap (fieldContrib reg model_table root_table inst raw)).map
      Prod.fst) = fields.flatMap (contribKeys reg model_table root_table) := by
  induction fields with
  | nil => rfl
  | cons f rest ih =>
    simp only [List.flatMap_cons, List.map_append, ih,
      fieldContrib_keys reg model_table root_table inst raw f]

/-- C2: evaluation of the write path and the primary-key lookup path at a
600-character string primary key.  The write
(`django_instance_to_entity`) stores the identity clamped to the first 500
characters and emits the truncation warning; `prep_lookup_key` applies the
same clamp — so the lookup resolves to the same stored name — but, because
the source computes the leftover from the *already-truncated* string
(`value = value[:500]; left = value[500:]`), the lookup path emits *no*
warning, contradicting the claim that it emits the same warning. -/
theorem C2_oversized_key_write_and_lookup :
    django_instance_to_entity emptyRegistry strPkModel [strPkField] false
        strPkInstance =
      .ok (⟨"longkey_table", Option.none, some (.ustr clampedKeyString), []⟩,
        [.truncation]) ∧
    prep_lookup_key strPkModel (.ustr longKeyString) strPkField =
      (⟨"longkey_table", .ustr clampedKeyString⟩, []) := by
  constructor
  · set_option maxRecDepth 4000 in rfl
  · set_option maxRecDepth 4000 in rfl

/-- C3 counterexample: an explicitly supplied primary key that is neither
an integer nor a string but *falsy* — the float `0.0` on a `FloatField`
primary key — does not raise; the mapper succeeds with an auto-assigned
identity, so the claim as stated (any non-int, non-string explicit primary
key raises) is false. -/
theorem C3_counterexample_falsy_float_pk :
    django_instance_to_entity emptyRegistry floatPkModel [floatPkField] false
        floatPkInstance =
      .ok (⟨"float_table", Option.none, Option.none, []⟩, []) ∧
    Instance.getattr floatPkInstance "fid" = .float 0 0 ∧
    isInstInt (.float 0 0) = false ∧
    isInstBasestring (.float 0 0) = false ∧
    pyIsNone (.float 0 0) = false :=
  ⟨rfl, rfl, rfl, rfl, rfl⟩

/-- C3 (amended): if any non-nullable non-primary-key field of the mapped
row resolves to None, or the explicitly supplied primary key is *truthy*
and neither an integer nor a string, the mapper raises a
constraint-violation error (IntegrityError / ValueError) and no entity is
produced. -/
theorem C3_constraint_violations_fail_fast (reg : SpecialIndexRegistry)
    (model : Model) (fields0 : List Field) (inst : Instance) (raw : Bool)
    (h : (∃ f ∈ effective_fields model fields0 inst,
            f.null = false ∧ f.primary_key = false ∧
            pyIsNone (get_prepared_db_value inst f raw) = true) ∨
         (pyTruthy (pkValueOf inst raw (inheritanceRoot model).db_table
              (effective_fields model fields0 inst)) = true ∧
          isInstInt (pkValueOf inst raw (inheritanceRoot model).db_table
              (effective_fields model fields0 inst)) = false ∧
          isInstBasestring (pkValueOf inst raw (inheritanceRoot model).db_table
              (effective_fields model fields0 inst)) = false)) :
    ∃ err, django_instance_to_entity reg model fields0 raw inst = .error err := by
  rcases h with hA | ⟨htr, hint, hstr⟩
  · obtain ⟨err, herr⟩ := processFields_error_of_violation reg model.db_table
      (inheritanceRoot model).db_table inst raw _ [] .none hA
    exact ⟨err, by simp only [django_instance_to_entity]; rw [herr]⟩
  · rcases hp : processFields reg model.db_table (inheritanceRoot model).db_table
        inst raw (effective_fields model fields0 inst) [] .none with err | ⟨fvs, pk⟩
    · exact ⟨err, by simp only [django_instance_to_entity]; rw [hp]⟩
    · have hpk : pk = pkValueOf inst raw (inheritanceRoot model).db_table
          (effective_fields model fields0 inst) := by
        have := (processFields_ok reg model.db_table
          (inheritanceRoot model).db_table inst raw _ _ _ _ _ hp).2
        rw [this]
        rfl
      rw [← hpk] at htr hint hstr
      have hkw : pkKwargs pk = .error (.valueError "Invalid primary key value") := by
        cases pk <;> simp_all [pkKwargs, pyTruthy, isInstInt, isInstBasestring]
      exact ⟨.valueError "Invalid primary key value", by
        simp [django_instance_to_entity, hp, hkw]⟩

/-- Witness for the amended C3: a non-nullable `CharField` with no value on
the instance makes the mapper fail before any store round-trip. -/
theorem C3_constraint_violations_witness :
    ∃ err, django_instance_to_entity emptyRegistry reqModel [reqField] false
      emptyInstance = .error err :=
  C3_constraint_violations_fail_fast emptyRegistry reqModel [reqField]
    emptyInstance false (Or.inl ⟨reqField, by decide, rfl, rfl, rfl⟩)

/-- C6 counterexample: writing a `Child` instance of the two-level
hierarchy produces a StorageRecord under the *Base* kind (not the Child
kind as claimed) whose `class` discriminator is
`[Child_kind, Base_kind]` (not `[Base_kind, Child_kind]` as claimed). -/
theorem C6_counterexample_child_write :
    django_instance_to_entity emptyRegistry childModel [childNameField] false
        childInstance =
      .ok (⟨"base_table", some 7, Option.none,
        [("cname", .ustr "c"), ("bname", .ustr "b"),
         ("class", .strlist ["child_table", "base_table"])]⟩, []) ∧
    ("base_table" : String) ≠ "child_table" ∧
    (["child_table", "base_table"] : List String) ≠ ["base_table", "child_table"] :=
  ⟨rfl, by decide, by decide⟩

/-- C6 (amended): for every instance of a two-level concrete hierarchy
`Base -> Child` written through the mapper, exactly one StorageRecord is
produced, under the *root* (`Base`) kind, whose `class` discriminator is
the ordered list `[Child_kind, Base_kind]`; every field declared on `Base`
is part of the processed field list alongside `Child`'s fields. -/
theorem C6_inheritance_flattening (reg : SpecialIndexRegistry)
    (base child : Model) (fields0 : List Field) (inst : Instance) (raw : Bool)
    (e : Entity) (w : List Warning)
    (hbp : base.parents = []) (hba : base.abstract = false)
    (hcp : child.parents = [base])
    (hok : django_instance_to_entity reg child fields0 raw inst = .ok (e, w)) :
    e.kind = base.db_table ∧
    dictGet? e.props "class" = some (.strlist [child.db_table, base.db_table]) ∧
    effective_fields child fields0 inst =
      (fields0 ++ base.mfields) ++ childFields child inst := by
  have h1 : child.get_parent_list = [base] := by
    rw [get_parent_list_eq, hcp, parentListAux_single base hbp]
  have hui : usesInheritance child = true := by
    simp [usesInheritance, concreteParents, h1, hba]
  have hkind : get_datastore_kind child = base.db_table := by
    have hcond : (base.parents.isEmpty && !base.abstract) = true := by
      simp [hbp, hba]
    simp [get_datastore_kind, hcp, List.find?_cons_of_pos, hcond]
  have hclasses : inheritanceClasses child = [child.db_table, base.db_table] := by
    simp [inheritanceClasses, h1]
  have hfields : effective_fields child fields0 inst =
      (fields0 ++ base.mfields) ++ childFields child inst := by
    simp [effective_fields, extendedFields, hui, h1]
  refine ⟨?_, ?_, hfields⟩ <;>
  · rcases hp : processFields reg child.db_table (inheritanceRoot child).db_table
        inst raw (effective_fields child fields0 inst) [] .none with err | ⟨fvs, pk⟩
    · simp [django_instance_to_entity, hp] at hok
    · rcases hk : pkKwargs pk with err | ⟨eid, ename, warns⟩
      · simp [django_instance_to_entity, hp, hk] at hok
      · simp only [django_instance_to_entity, hp, hk, Except.ok.injEq,
          Prod.mk.injEq] at hok
        obtain ⟨he, -⟩ := hok
        subst he
        simp [hkind, hui, hclasses, dictGet?_append_singleton]

/-- Witness for the amended C6, at the concrete `Base -> Child` fixture. -/
theorem C6_inheritance_flattening_witness :
    (⟨"base_table", some 7, Option.none,
      [("cname", PyValue.ustr "c"), ("bname", PyValue.ustr "b"),
       ("class", PyValue.strlist ["child_table", "base_table"])]⟩ : Entity).kind
        = baseModel.db_table ∧
    dictGet? [("cname", PyValue.ustr "c"), ("bname", PyValue.ustr "b"),
        ("class", PyValue.strlist ["child_table", "base_table"])] "class" =
      some (.strlist [childModel.db_table, baseModel.db_table]) ∧
    effective_fields childModel [childNameField] childInstance =
      ([childNameField] ++ baseModel.mfields) ++
        childFields childModel childInstance :=
  C6_inheritance_flattening emptyRegistry baseModel childModel [childNameField]
    childInstance false _ _ rfl rfl rfl rfl

/-- C7 counterexample: a primary-key field with a registered Special Index
transform has its derived column attached to the record, but its *own*
column is not stored (the value lives in the identity instead), so the
claim's "alongside the original column" fails for primary-key fields. -/
theorem C7_counterexample_pk_special_index :
    django_instance_to_entity idxRegistry ipkModel [ipkField] false ipkInstance =
      .ok (⟨"ipk_table", Option.none, some (.ustr "k1"),
        [("_idx_contains_ipk", .ustr "k1")]⟩, []) ∧
    dictGet? [("_idx_contains_ipk", PyValue.ustr "k1")] "ipk" = Option.none :=
  ⟨rfl, rfl⟩

/-- C7 (amended): for every field of a mapped row (of a model without
concrete parents and with distinct stored column names) that has registered
Special Index transforms, the record carries one derived column per
transform under `indexed_column_name` holding `prep_value_for_database` of
the field's encoded value; the original column is stored alongside for
every non-primary-key field (a primary-key field's value lives in the
identity instead). -/
theorem C7_special_index_columns (reg : SpecialIndexRegistry)
    (model : Model) (fields0 : List Field) (inst : Instance) (raw : Bool)
    (e : Entity) (w : List Warning)
    (hok : django_instance_to_entity reg model fields0 raw inst = .ok (e, w))
    (hnoinherit : usesInheritance model = false)
    (hnodup : ((effective_fields model fields0 inst).flatMap
      (contribKeys reg model.db_table (inheritanceRoot model).db_table)).Nodup)
    (f : Field) (hf : f ∈ effective_fields model fields0 inst)
    (ix : Indexer) (hix : ix ∈ reg model.db_table f.column) :
    dictGet? e.props (ix.indexed_column_name f.column) =
      some (ix.prep_value_for_database (get_prepared_db_value inst f raw)) ∧
    ((f.primary_key && f.owner == (inheritanceRoot model).db_table) = false →
      dictGet? e.props f.column = some (get_prepared_db_value inst f raw)) := by
  rcases hp : processFields reg model.db_table (inheritanceRoot model).db_table
      inst raw (effective_fields model fields0 inst) [] .none with err | ⟨fvs, pk⟩
  · simp [django_instance_to_entity, hp] at hok
  · rcases hk : pkKwargs pk with err | ⟨eid, ename, warns⟩
    · simp [django_instance_to_entity, hp, hk] at hok
    · simp only [django_instance_to_entity, hp, hk, Except.ok.injEq,
        Prod.mk.injEq] at hok
      obtain ⟨he, -⟩ := hok
      have hfvs : fvs = (effective_fields model fields0 inst).flatMap
          (fieldContrib reg model.db_table (inheritanceRoot model).db_table
            inst raw) := by
        have := (processFields_ok reg model.db_table
          (inheritanceRoot model).db_table inst raw _ _ _ _ _ hp).1
        simpa using this
      have hprops : e.props = (effective_fields model fields0 inst).flatMap
          (fieldContrib reg model.db_table (inheritanceRoot model).db_table
            inst raw) := by
        subst he
        simp [hnoinherit, hfvs]
      have hnd : (e.props.map Prod.fst).Nodup := by
        rw [hprops, flatMap_fieldContrib_keys]
        exact hnodup
      constructor
      · apply dictGet?_of_nodup_mem _ hnd
        rw [hprops]
        refine List.mem_flatMap.mpr ⟨f, hf, ?_⟩
        simp only [fieldContrib]
        refine List.mem_append_right _ ?_
        exact List.mem_map.mpr ⟨ix, hix, rfl⟩
      · intro hb
        apply dictGet?_of_nodup_mem _ hnd
        rw [hprops]
        refine List.mem_flatMap.mpr ⟨f, hf, ?_⟩
        simp only [fieldContrib, hb, if_false]
        exact List.mem_append_left _ (List.mem_cons_self _ _)

/-- Witness for the amended C7, at the concrete primary-key-with-index
fixture. -/
theorem C7_special_index_columns_witness :
    dictGet? [("_idx_contains_ipk", PyValue.ustr "k1")]
        (idxIndexer.indexed_column_name ipkField.column) =
      some (idxIndexer.prep_value_for_database
        (get_prepared_db_value ipkInstance ipkField false)) ∧
    ((ipkField.primary_key && ipkField.owner ==
        (inheritanceRoot ipkModel).db_table) = false →
      dictGet? [("_idx_contains_ipk", PyValue.ustr "k1")] ipkField.column =
        some (get_prepared_db_value ipkInstance ipkField false)) :=
  C7_special_index_columns idxRegistry ipkModel [ipkField] ipkInstance false
    ⟨"ipk_table", Option.none, some (.ustr "k1"),
      [("_idx_contains_ipk", .ustr "k1")]⟩ []
    rfl rfl (by decide) ipkField (by decide) idxIndexer
    (List.mem_cons_self _ _)

/-- C8 counterexample: with `COMPLETE_FLUSH_WHILE_TESTING` set but no
`test` argument in the process invocation, `sql_flush` does *not* replace
the caller's table list with the store's kinds — the claim's "whenever the
flag is set" is too strong. -/
theorem C8_counterexample_flag_without_test_argv :
    sql_flush ⟨false, true⟩ ["manage.py", "runserver"] ["k1", "k2"] ["t"] =
      [FlushCommand.mk "t"] ∧
    [FlushCommand.mk "t"] ≠ (["k1", "k2"].map FlushCommand.mk) :=
  ⟨rfl, by decide⟩

/-- C8 (amended): `sql_flush` returns one `FlushCommand` per table of the
given list; the list is replaced by the store's dynamically discovered
kinds exactly when `COMPLETE_FLUSH_WHILE_TESTING` is set *and* the process
was invoked as a test run (`"test" in sys.argv`). -/
theorem C8_sql_flush_commands (st : Settings) (argv store_kinds tables : List String) :
    (st.COMPLETE_FLUSH_WHILE_TESTING = true → argv.contains "test" = true →
      sql_flush st argv store_kinds tables = store_kinds.map FlushCommand.mk) ∧
    (st.COMPLETE_FLUSH_WHILE_TESTING = false ∨ argv.contains "test" = false →
      sql_flush st argv store_kinds tables = tables.map FlushCommand.mk) := by
  constructor
  · intro h1 h2
    have hm : "test" ∈ argv := by simpa using h2
    simp [sql_flush, h1, hm]
  · intro h
    rcases h with h | h
    · simp [sql_flush, h]
    · have hm : "test" ∉ argv := by simpa using h
      simp [sql_flush, hm]

/-- Witness for the amended C8: a test-run invocation with the flag set
flushes the dynamically discovered kinds. -/
theorem C8_sql_flush_commands_witness :
    sql_flush ⟨false, true⟩ ["test"] ["k"] ["t"] = [FlushCommand.mk "k"] :=
  (C8_sql_flush_commands ⟨false, true⟩ ["test"] ["k"] ["t"]).1 rfl rfl

/-- The `while` loop of `fetchmany` over an aggregate result yields one
copy of the aggregate row per iteration and never moves the cursor. -/
theorem fetchmanyLoop_agg (st : Settings) (c : Cursor) (n : Int)
    (hagg : c.cmd.results = .agg n) (size : Nat) :
    fetchmanyLoop st size c = (List.replicate size [.int n], c) := by
  induction size with
  | zero => rfl
  | succ k ih =>
    have hf : fetchone st c = (some [.int n], c) := by
      unfold fetchone
      rw [hagg]
    simp [fetchmanyLoop, hf, ih, List.replicate_succ]

/-- C9: when the last select produced an aggregate (integer) result,
`fetchone` always returns the same 1-tuple `(count,)` without consuming or
changing anything, and for a nonzero count `fetchmany(size)` returns `size`
copies of that row. -/
theorem C9_aggregate_fetch (st : Settings) (c : Cursor) (n : Int) (size : Nat)
    (hagg : c.cmd.results = .agg n) (hn : n ≠ 0) :
    fetchone st c = (some [.int n], c) ∧
    fetchmany st size c = (List.replicate size [.int n], c) := by
  have hf : fetchone st c = (some [.int n], c) := by
    unfold fetchone
    rw [hagg]
  refine ⟨hf, ?_⟩
  unfold fetchmany
  rw [hagg]
  simp [SelectResults.truthy, hn, fetchmanyLoop_agg st c n hagg size]

/-- Witness for C9 at a concrete aggregate cursor with count 3. -/
theorem C9_aggregate_fetch_witness :
    fetchone ⟨true, false⟩ aggCursor = (some [.int 3], aggCursor) ∧
    fetchmany ⟨true, false⟩ 4 aggCursor = (List.replicate 4 [.int 3], aggCursor) :=
  C9_aggregate_fetch ⟨true, false⟩ aggCursor 3 4 rfl (by decide)

/-- C10: a falsy explicit primary key — the integer `0` or the empty
string — is treated exactly like an absent primary key: the entity is
built with neither `id=` nor `name=` (the store will auto-assign an
identity) and no error or warning is raised. -/
theorem C10_falsy_pk_auto_identity (reg : SpecialIndexRegistry) (model : Model)
    (fields0 : List Field) (inst : Instance) (raw : Bool)
    (fvs : List (String × PyValue)) (pkv : PyValue)
    (hrun : processFields reg model.db_table (inheritanceRoot model).db_table
      inst raw (effective_fields model fields0 inst) [] .none = .ok (fvs, pkv))
    (hpk : pkv = .int 0 ∨ pkv = .ustr "") :
    django_instance_to_entity reg model fields0 raw inst =
      .ok ({ kind := get_datastore_kind model, eid := Option.none,
             ename := Option.none,
             props := fvs ++ (if usesInheritance model then
               [("class", .strlist (inheritanceClasses model))] else []) }, []) := by
  simp only [django_instance_to_entity]
  rw [hrun]
  rcases hpk with rfl | rfl <;> rfl

/-- Witness for C10: an `IntegerField` primary key explicitly set to `0`
produces an entity with no explicit identity, no error and no warning. -/
theorem C10_falsy_pk_auto_identity_witness :
    django_instance_to_entity emptyRegistry zeroPkModel [zeroPkField] false
        zeroPkInstance =
      .ok ({ kind := get_datastore_kind zeroPkModel, eid := Option.none,
             ename := Option.none,
             props := [] ++ (if usesInheritance zeroPkModel then
               [("class", .strlist (inheritanceClasses zeroPkModel))] else []) },
        []) :=
  C10_falsy_pk_auto_identity emptyRegistry zeroPkModel [zeroPkField]
    zeroPkInstance false [] (.int 0) rfl (Or.inl rfl)

end Djangae
